import Mathlib

/-!
Verification of the yaesutool codec and clone-transfer code (ft-60.c, vx-2.c).

The device memory image `radio_mem` (an array of `unsigned char`) is modelled
as a function `Memory : Nat → Nat`; reads go through `byte`, which truncates
to 8 bits exactly as the C `unsigned char` type does, and stores truncate the
stored value modulo 256.  C `int` values are modelled as `Int` (or `Nat` where
the C value is provably non-negative), C `double` values as `ℚ`, and C strings
as `List Char`.  The CTCSS/DCS code tables are external constant data in this
program; all definitions that consult them take them as parameters.
-/

/-- The device memory image: byte address to stored value. -/
abbrev Memory := Nat → Nat

/-- Read one byte of the image (unsigned char access). -/
def byte (m : Memory) (a : Nat) : Nat := m a % 256

/-- Store one byte (the value is truncated modulo 256, as a C store to
`unsigned char` is). -/
def upd (m : Memory) (a v : Nat) : Memory :=
  fun x => if x = a then v % 256 else m x

/-- C `memset(&radio_mem[a], v, n)`. -/
def memset (m : Memory) (a n v : Nat) : Memory :=
  fun x => if a ≤ x ∧ x < a + n then v % 256 else m x

/-- Truncation of a rational toward zero: the C cast `(int)x` from `double`. -/
def ctrunc (q : ℚ) : Int := if 0 ≤ q then ⌊q⌋ else -⌊-q⌋

/-- vx-2.c `iround`: round half away from zero. -/
def iround (q : ℚ) : Int := if 0 ≤ q then ⌊q + 1/2⌋ else -⌊-q + 1/2⌋

/-! ## FT-60 frequency codec (ft-60.c, freq_to_hz / hz_to_freq)

A frequency is stored in three BCD bytes; the two top bits of the first byte
hold a 0..3 multiplier of 2500 Hz.  `>> n` on an `unsigned char` is division
by `2^n`, `& 15` is `% 16`. -/

/-- ft-60.c `freq_to_hz`: decode a 3-byte packed frequency to Hz. -/
def ft60_freq_to_hz (b : Nat × Nat × Nat) : Nat :=
  b.1 % 16 * 100000000 +
  b.2.1 / 16 % 16 * 10000000 +
  b.2.1 % 16 * 1000000 +
  b.2.2 / 16 % 16 * 100000 +
  b.2.2 % 16 * 10000 +
  b.1 / 64 * 2500

/-- ft-60.c `hz_to_freq`: encode a Hz value into the 3-byte packed format. -/
def ft60_hz_to_freq (hz : Nat) : Nat × Nat × Nat :=
  (hz / 2500 % 4 * 64 + hz / 100000000 % 10,
   hz / 10000000 % 10 * 16 + hz / 1000000 % 10,
   hz / 100000 % 10 * 16 + hz / 10000 % 10)

/-! ## VX-2 frequency codec (vx-2.c, freq_to_hz / hz_to_freq)

Six BCD digits of the kHz value; a last digit of 2 or 7 additionally encodes
a trailing +500 Hz half-step.  A zero Hz value encodes as three 0xff bytes. -/

/-- vx-2.c `freq_to_hz`: decode a 3-byte packed frequency to Hz. -/
def vx2_freq_to_hz (b : Nat × Nat × Nat) : Nat :=
  ((((b.1 / 16 * 10 + b.1 % 16) * 10 + b.2.1 / 16) * 10 + b.2.1 % 16) * 10 +
      b.2.2 / 16) * 10 * 1000 + b.2.2 % 16 * 1000 +
  (if b.2.2 % 16 = 2 ∨ b.2.2 % 16 = 7 then 500 else 0)

/-- vx-2.c `hz_to_freq`: encode a Hz value into the 3-byte packed format. -/
def vx2_hz_to_freq (hz : Nat) : Nat × Nat × Nat :=
  if hz = 0 then (255, 255, 255)
  else
    (hz / 100000000 % 10 * 16 + hz / 10000000 % 10,
     hz / 1000000 % 10 * 16 + hz / 100000 % 10,
     hz / 10000 % 10 * 16 + hz / 1000 % 10)

/-- The set of Hz values claimed representable for the VX-2: nonzero
multiples of 1000 whose kHz value does not end in digit 2 or 7, and values
K*1000+500 where K ends in digit 2 or 7. -/
def vx2_representable (hz : Nat) : Prop :=
  (hz ≠ 0 ∧ hz % 1000 = 0 ∧ hz / 1000 % 10 ≠ 2 ∧ hz / 1000 % 10 ≠ 7) ∨
  (hz % 1000 = 500 ∧ (hz / 1000 % 10 = 2 ∨ hz / 1000 % 10 = 7))

instance (hz : Nat) : Decidable (vx2_representable hz) := by
  unfold vx2_representable; infer_instance

/-- C1 (counterexample): 10^9 Hz is in the claimed VX-2 representable range
(a nonzero multiple of 1000 whose kHz value 10^6 ends in 0), yet encoding it
with hz_to_freq and decoding with freq_to_hz yields 0, not 10^9: the claim
as stated, with no upper bound on the VX-2 range, is false. -/
theorem vx2_freq_roundtrip_fails_at_1e9 :
    vx2_representable 1000000000 ∧
    vx2_freq_to_hz (vx2_hz_to_freq 1000000000) ≠ 1000000000 := by
  decide

/-- C1 (amended): for every Hz value in the representable range (FT-60: any
non-negative multiple of 2500 Hz below 10^9; VX-2: any value of the claimed
representable set that is below 10^9), encoding with hz_to_freq and decoding
with freq_to_hz returns the original Hz value exactly. -/
theorem freq_roundtrip :
    (∀ hz : Nat, hz % 2500 = 0 → hz < 1000000000 →
      ft60_freq_to_hz (ft60_hz_to_freq hz) = hz) ∧
    (∀ hz : Nat, vx2_representable hz → hz < 1000000000 →
      vx2_freq_to_hz (vx2_hz_to_freq hz) = hz) := by
  constructor
  · intro hz h2500 hlt
    simp only [ft60_hz_to_freq, ft60_freq_to_hz]
    rw [show hz / 2500 % 4 * 64 + hz / 100000000 % 10 =
          hz / 2500 % 4 * 64 + hz / 100000000 % 10 from rfl]
    rw [show (hz / 2500 % 4 * 64 + hz / 100000000 % 10) % 16 =
          hz / 100000000 % 10 from by omega]
    rw [show (hz / 2500 % 4 * 64 + hz / 100000000 % 10) / 64 =
          hz / 2500 % 4 from by omega]
    rw [show (hz / 10000000 % 10 * 16 + hz / 1000000 % 10) / 16 % 16 =
          hz / 10000000 % 10 from by omega]
    rw [show (hz / 10000000 % 10 * 16 + hz / 1000000 % 10) % 16 =
          hz / 1000000 % 10 from by omega]
    rw [show (hz / 100000 % 10 * 16 + hz / 10000 % 10) / 16 % 16 =
          hz / 100000 % 10 from by omega]
    rw [show (hz / 100000 % 10 * 16 + hz / 10000 % 10) % 16 =
          hz / 10000 % 10 from by omega]
    omega
  · intro hz hrep hlt
    have hne : hz ≠ 0 := by
      rcases hrep with ⟨hne, _, _, _⟩ | ⟨hmod, _⟩
      · exact hne
      · omega
    simp only [vx2_hz_to_freq, vx2_freq_to_hz, if_neg hne]
    rw [show (hz / 100000000 % 10 * 16 + hz / 10000000 % 10) / 16 =
          hz / 100000000 % 10 from by omega]
    rw [show (hz / 100000000 % 10 * 16 + hz / 10000000 % 10) % 16 =
          hz / 10000000 % 10 from by omega]
    rw [show (hz / 1000000 % 10 * 16 + hz / 100000 % 10) / 16 =
          hz / 1000000 % 10 from by omega]
    rw [show (hz / 1000000 % 10 * 16 + hz / 100000 % 10) % 16 =
          hz / 100000 % 10 from by omega]
    rw [show (hz / 10000 % 10 * 16 + hz / 1000 % 10) / 16 =
          hz / 10000 % 10 from by omega]
    rw [show (hz / 10000 % 10 * 16 + hz / 1000 % 10) % 16 =
          hz / 1000 % 10 from by omega]
    rcases hrep with ⟨_, hmod, h2, h7⟩ | ⟨hmod, h27⟩
    · rw [if_neg (by omega)]
      omega
    · rw [if_pos (by omega)]
      omega

/-- C1 (witness): the amended round-trip law at the concrete inputs
146520000 Hz (FT-60) and 2500 Hz (a VX-2 half-step value). -/
theorem freq_roundtrip_witness :
    ft60_freq_to_hz (ft60_hz_to_freq 146520000) = 146520000 ∧
    vx2_freq_to_hz (vx2_hz_to_freq 2500) = 2500 :=
  ⟨freq_roundtrip.1 146520000 (by decide) (by decide),
   freq_roundtrip.2 2500 (by decide) (by decide)⟩

/-! ## Image checksum (ft60_download / ft60_upload, vx2_download / vx2_upload)

Both downloads verify `sum(radio_mem[0..MEMSZ-1]) & 0xff == radio_mem[MEMSZ]`
and both uploads store that sum into `radio_mem[MEMSZ]` (the store to an
`unsigned char` truncates modulo 256) just before sending the trailing
byte. -/

/-- ft-60.c MEMSZ. -/
def FT60_MEMSZ : Nat := 0x6fc8

/-- vx-2.c MEMSZ. -/
def VX2_MEMSZ : Nat := 32594

/-- `sum += radio_mem[addr]` for `addr = 0 .. n-1`. -/
def sumBytes (m : Memory) : Nat → Nat
  | 0 => 0
  | n + 1 => sumBytes m n + byte m n

/-- The download checksum test: `(sum & 0xff) == radio_mem[MEMSZ]`; the
verify loop of the download exits exactly when this holds. -/
def checksum_ok (memsz : Nat) (m : Memory) : Bool :=
  sumBytes m memsz % 256 == byte m memsz

/-- The upload checksum store: `radio_mem[MEMSZ] = sum` (truncated to a
byte), computed over the image before the trailing byte is sent. -/
def store_checksum (memsz : Nat) (m : Memory) : Memory :=
  upd m memsz (sumBytes m memsz % 256)

theorem byte_upd_self (m : Memory) (a v : Nat) :
    byte (upd m a v) a = v % 256 := by
  simp [byte, upd, Nat.mod_mod_of_dvd]

theorem byte_upd_ne (m : Memory) (a v x : Nat) (h : x ≠ a) :
    byte (upd m a v) x = byte m x := by
  simp [byte, upd, h]

theorem sumBytes_upd_ge (m : Memory) (a v : Nat) :
    ∀ n, n ≤ a → sumBytes (upd m a v) n = sumBytes m n := by
  intro n
  induction n with
  | zero => intro _; rfl
  | succ k ih =>
    intro h
    rw [sumBytes, sumBytes, ih (by omega), byte_upd_ne m a v k (by omega)]

theorem sumBytes_const_zero : ∀ n, sumBytes (fun _ => 0) n = 0 := by
  intro n
  induction n with
  | zero => rfl
  | succ k ih => rw [sumBytes, ih]; rfl

/-- C2: whenever a download completes successfully (the verify loop exits,
i.e. `checksum_ok`), and immediately after an upload computes the trailing
byte (`store_checksum`) before sending it, the byte at index MEMSZ equals
the sum of bytes 0..MEMSZ-1 modulo 256, for both models. -/
theorem checksum_invariant :
    (∀ m : Memory, checksum_ok FT60_MEMSZ m = true →
      byte m FT60_MEMSZ = sumBytes m FT60_MEMSZ % 256) ∧
    (∀ m : Memory,
      byte (store_checksum FT60_MEMSZ m) FT60_MEMSZ =
        sumBytes (store_checksum FT60_MEMSZ m) FT60_MEMSZ % 256) ∧
    (∀ m : Memory, checksum_ok VX2_MEMSZ m = true →
      byte m VX2_MEMSZ = sumBytes m VX2_MEMSZ % 256) ∧
    (∀ m : Memory,
      byte (store_checksum VX2_MEMSZ m) VX2_MEMSZ =
        sumBytes (store_checksum VX2_MEMSZ m) VX2_MEMSZ % 256) := by
  have down : ∀ memsz (m : Memory), checksum_ok memsz m = true →
      byte m memsz = sumBytes m memsz % 256 := by
    intro memsz m h
    have := of_decide_eq_true h
    omega
  have up : ∀ memsz (m : Memory),
      byte (store_checksum memsz m) memsz =
        sumBytes (store_checksum memsz m) memsz % 256 := by
    intro memsz m
    rw [store_checksum, byte_upd_self,
      sumBytes_upd_ge m memsz (sumBytes m memsz % 256) memsz le_rfl]
    omega
  exact ⟨down FT60_MEMSZ, up FT60_MEMSZ, down VX2_MEMSZ, up VX2_MEMSZ⟩

/-- C2 (witness): the invariant at the all-zero image (whose checksum test
passes, the sum being 0) and at its upload-side checksum store. -/
theorem checksum_invariant_witness :
    byte (fun _ => 0) FT60_MEMSZ = sumBytes (fun _ => 0) FT60_MEMSZ % 256 ∧
    byte (store_checksum FT60_MEMSZ (fun _ => 0)) FT60_MEMSZ =
      sumBytes (store_checksum FT60_MEMSZ (fun _ => 0)) FT60_MEMSZ % 256 ∧
    byte (fun _ => 0) VX2_MEMSZ = sumBytes (fun _ => 0) VX2_MEMSZ % 256 ∧
    byte (store_checksum VX2_MEMSZ (fun _ => 0)) VX2_MEMSZ =
      sumBytes (store_checksum VX2_MEMSZ (fun _ => 0)) VX2_MEMSZ % 256 := by
  refine ⟨checksum_invariant.1 _ ?_, checksum_invariant.2.1 _,
    checksum_invariant.2.2.1 _ ?_, checksum_invariant.2.2.2 _⟩ <;>
    simp [checksum_ok, sumBytes_const_zero, byte]

/-! ## Clone transport: read_block (ft-60.c and vx-2.c)

`serial_read` is abstracted by the number of bytes it actually delivers
(`deliver`) and by the reply byte, if any, it yields after the host sends
the 0x06 acknowledge (`ack`, `none` when the 1-byte read times out short).
The C functions print diagnostics and call `exit(-1)` on fatal errors; the
outcome is modelled by `BlockResult`, whose fatal constructors carry the
block offset named in the diagnostic. -/

inductive BlockResult where
  | done : BlockResult
  | empty : BlockResult
  | shortRead (offset : Nat) : BlockResult
  | noAck (offset : Nat) : BlockResult
  | badAck (offset : Nat) : BlockResult
deriving DecidableEq, Repr

/-- ft-60.c `read_block`: read `nbytes` bytes; on a short read return
`empty` when `start == 0`, else exit naming the offset; then exchange the
0x06 acknowledge. -/
def ft60_read_block (deliver : Nat) (ack : Option Nat) (start nbytes : Nat) :
    BlockResult :=
  if deliver ≠ nbytes then
    if start = 0 then .empty else .shortRead start
  else
    match ack with
    | none => .noAck start
    | some r => if r ≠ 0x06 then .badAck start else .done

/-- vx-2.c `read_block`: chunked into reads of at most 64 bytes; the
acknowledge is exchanged only when the block length at entry is at most 16.
`deliver k` / `ack k` give the serial results for the k-th chunk. -/
def vx2_read_block_go (needAck : Bool) (deliver : Nat → Nat)
    (ack : Nat → Option Nat) (k start datalen : Nat) : BlockResult :=
  if deliver k ≠ min datalen 64 then
    if start = 0 then .empty else .shortRead start
  else
    match needAck, ack k with
    | true, none => .noAck start
    | true, some r =>
      if r ≠ 0x06 then .badAck start
      else if _h : min datalen 64 < datalen then
        vx2_read_block_go needAck deliver ack (k + 1) (start + min datalen 64)
          (datalen - min datalen 64)
      else .done
    | false, _ =>
      if _h : min datalen 64 < datalen then
        vx2_read_block_go needAck deliver ack (k + 1) (start + min datalen 64)
          (datalen - min datalen 64)
      else .done
termination_by datalen
decreasing_by all_goals omega

/-- vx-2.c `read_block` entry point: `need_ack = (datalen <= 16)` is fixed
before the chunk loop. -/
def vx2_read_block (deliver : Nat → Nat) (ack : Nat → Option Nat)
    (start datalen : Nat) : BlockResult :=
  vx2_read_block_go (datalen ≤ 16) deliver ack 0 start datalen

/-- C7: in read_block, a short serial read (fewer bytes delivered than
requested) when start == 0 returns 0 (`empty`) without terminating the
process; a short read when start != 0 terminates the process with a
diagnostic naming the failing block offset (`shortRead start`), on both
models. -/
theorem read_block_short_read :
    (∀ deliver ack nbytes, deliver ≠ nbytes →
      ft60_read_block deliver ack 0 nbytes = .empty) ∧
    (∀ deliver ack start nbytes, deliver ≠ nbytes → start ≠ 0 →
      ft60_read_block deliver ack start nbytes = .shortRead start) ∧
    (∀ deliver ack datalen, deliver 0 ≠ min datalen 64 →
      vx2_read_block deliver ack 0 datalen = .empty) ∧
    (∀ deliver ack start datalen, deliver 0 ≠ min datalen 64 → start ≠ 0 →
      vx2_read_block deliver ack start datalen = .shortRead start) := by
  refine ⟨?_, ?_, ?_, ?_⟩
  · intro deliver ack nbytes h
    simp [ft60_read_block, h]
  · intro deliver ack start nbytes h hs
    simp [ft60_read_block, h, hs]
  · intro deliver ack datalen h
    rw [vx2_read_block, vx2_read_block_go.eq_def, if_pos h, if_pos rfl]
  · intro deliver ack start datalen h hs
    rw [vx2_read_block, vx2_read_block_go.eq_def, if_pos h, if_neg hs]

/-- C7 (witness): a 0-byte delivery against an 8-byte (FT-60) or 10-byte
(VX-2) request, polled at start 0 and fatal at a nonzero start. -/
theorem read_block_short_read_witness :
    ft60_read_block 0 none 0 8 = .empty ∧
    ft60_read_block 0 none 8 64 = .shortRead 8 ∧
    vx2_read_block (fun _ => 0) (fun _ => none) 0 10 = .empty ∧
    vx2_read_block (fun _ => 0) (fun _ => none) 18 32577 = .shortRead 18 :=
  ⟨read_block_short_read.1 0 none 8 (by decide),
   read_block_short_read.2.1 0 none 8 64 (by decide) (by decide),
   read_block_short_read.2.2.1 _ _ 10 (by decide),
   read_block_short_read.2.2.2 _ _ 18 32577 (by decide) (by decide)⟩

/-! ## Compatibility check (ft60_is_compatible / vx2_is_compatible)

`strncmp(tag, radio_mem, 6) == 0`; the 6-character tags contain no NUL, so
the comparison succeeds exactly when the first 6 image bytes match. -/

/-- `strncmp(s, &radio_mem[a], |s|) == 0` for a NUL-free pattern `s`. -/
def strncmp_eq (m : Memory) : Nat → List Nat → Bool
  | _, [] => true
  | a, c :: rest => byte m a == c && strncmp_eq m (a + 1) rest

/-- ft-60.c `ft60_is_compatible`: the image starts with "AH017$". -/
def ft60_is_compatible (m : Memory) : Bool :=
  strncmp_eq m 0 [0x41, 0x48, 0x30, 0x31, 0x37, 0x24]

/-- vx-2.c `vx2_is_compatible`: the image starts with "AH015$". -/
def vx2_is_compatible (m : Memory) : Bool :=
  strncmp_eq m 0 [0x41, 0x48, 0x30, 0x31, 0x35, 0x24]

/-- C8: the compatibility check returns true if and only if the first 6
bytes of the image equal the model's fixed ASCII tag ("AH017$" for the
FT-60, "AH015$" for the VX-2); any image differing in any of those 6 bytes
yields false. -/
theorem is_compatible_iff :
    (∀ m : Memory, ft60_is_compatible m = true ↔
      byte m 0 = 0x41 ∧ byte m 1 = 0x48 ∧ byte m 2 = 0x30 ∧
      byte m 3 = 0x31 ∧ byte m 4 = 0x37 ∧ byte m 5 = 0x24) ∧
    (∀ m : Memory, vx2_is_compatible m = true ↔
      byte m 0 = 0x41 ∧ byte m 1 = 0x48 ∧ byte m 2 = 0x30 ∧
      byte m 3 = 0x31 ∧ byte m 4 = 0x35 ∧ byte m 5 = 0x24) := by
  constructor <;> intro m <;>
    simp [ft60_is_compatible, vx2_is_compatible, strncmp_eq, and_assoc]

/-- C8 (witness): an image starting with "AH017$" passes the FT-60 check,
and the all-zero image fails the VX-2 check (its first byte is not 0x41). -/
theorem is_compatible_iff_witness :
    ft60_is_compatible
      (fun a => [0x41, 0x48, 0x30, 0x31, 0x37, 0x24].getD a 0) = true ∧
    ¬ vx2_is_compatible (fun _ => 0) = true :=
  ⟨(is_compatible_iff.1 _).mpr (by decide),
   fun h => by
     have := ((is_compatible_iff.2 _).mp h).1
     simp [byte] at this⟩

/-! ## FT-60 channel records (ft-60.c)

`memory_channel_t` is a 16-byte bit-packed record; bit fields are allocated
from the least significant bit (the C ABI used by this code), so in byte 0
the 4-bit duplex field occupies bits 0-3, isam bit 4, isnarrow bit 5 and the
used flag bit 7; in byte 4 tmode occupies bits 0-2 and step bits 3-5; in
byte 8 tone occupies bits 0-5 and power bits 6-7; in byte 9 dtcs occupies
bits 0-6.  `memory_name_t` is an 8-byte record: six character codes, then
the used flag in bit 7 of byte 6 and the valid flag in bit 7 of byte 7.
Channel names are modelled as lists of ASCII codes. -/

def FT60_OFFSET_VFO : Nat := 0x0048
def FT60_OFFSET_HOME : Nat := 0x01c8
def FT60_OFFSET_CHANNELS : Nat := 0x0248
def FT60_OFFSET_PMS : Nat := 0x40c8
def FT60_OFFSET_NAMES : Nat := 0x4708
def FT60_OFFSET_BANKS : Nat := 0x69c8
def FT60_OFFSET_SCAN : Nat := 0x6ec8

/-- Apply a list of byte stores in order. -/
def updList (m : Memory) (l : List (Nat × Nat)) : Memory :=
  l.foldl (fun mm p => upd mm p.1 p.2) m

/-- The FT-60 CHARSET string of ft-60.c, as ASCII codes (65 entries; entry
36 is the space, entry 64 the open-box filler, rendered as an underscore). -/
def FT60_CHARSET : List Nat :=
  [48, 49, 50, 51, 52, 53, 54, 55, 56, 57,
   65, 66, 67, 68, 69, 70, 71, 72, 73, 74, 75, 76, 77, 78, 79, 80,
   81, 82, 83, 84, 85, 86, 87, 88, 89, 90,
   32, 33, 96, 111, 36, 37, 38, 39, 40, 41, 42, 43, 44, 45, 46, 47,
   124, 59, 47, 61, 62, 63, 64, 91, 126, 93, 94, 95, 95]

/-- ft-60.c `decode_name`: when the name record's valid and used flags are
set, map the six stored codes through CHARSET (codes outside the set become
spaces), render spaces as underscores and strip trailing ones; otherwise
the caller's empty string is left in place. -/
def ft60_decode_name (m : Memory) (i : Nat) : List Nat :=
  let base := FT60_OFFSET_NAMES + 8 * i
  if byte m (base + 7) / 128 = 1 ∧ byte m (base + 6) / 128 = 1 then
    (((List.range 6).map (fun n =>
        let c := byte m (base + n)
        let ch := if c < 65 then FT60_CHARSET.getD c 0 else 32
        if ch = 32 then 95 else ch)).reverse.dropWhile (· == 95)).reverse
  else []

/-- ft-60.c `encode_char`: underscore becomes space, letters fold to upper
case, characters missing from CHARSET map to the open-box code 64. -/
def ft60_encode_char (c : Nat) : Nat :=
  let c1 := if c = 95 then 32 else c
  let c2 := if 97 ≤ c1 ∧ c1 ≤ 122 then c1 - 32 else c1
  match FT60_CHARSET.findIdx? (· == c2) with
  | some j => j
  | none => 64

/-- ft-60.c `encode_name`: a non-empty name not starting with a dash sets
the valid and used flag bits (bit 7 of name-record bytes 7 and 6; the other
bits of those bytes are preserved) and stores the encoded characters padded
with the space code 36; otherwise both flags are cleared and the six
character bytes are filled with 0xff. -/
def ft60_encode_name (m : Memory) (i : Nat) (name : Option (List Char)) :
    Memory :=
  let base := FT60_OFFSET_NAMES + 8 * i
  match name with
  | some (c :: rest) =>
    if c ≠ '-' then
      updList m
        ([(base + 7, byte m (base + 7) % 128 + 128),
          (base + 6, byte m (base + 6) % 128 + 128)] ++
         (List.range 6).map (fun n =>
           (base + n,
            if h : n < (c :: rest).length
            then ft60_encode_char ((c :: rest).get ⟨n, h⟩).toNat
            else 36)))
    else
      updList m
        ([(base + 7, byte m (base + 7) % 128),
          (base + 6, byte m (base + 6) % 128)] ++
         (List.range 6).map (fun n => (base + n, 0xff)))
  | _ =>
    updList m
      ([(base + 7, byte m (base + 7) % 128),
        (base + 6, byte m (base + 6) % 128)] ++
       (List.range 6).map (fun n => (base + n, 0xff)))

/-- The semantic result of ft-60.c `decode_channel` (its output
parameters). -/
structure FT60Decoded where
  name : List Nat
  rx_hz : Int
  tx_hz : Int
  rx_ctcs : Int
  tx_ctcs : Int
  rx_dcs : Int
  tx_dcs : Int
  power : Int
  wide : Int
  scan : Int
  isam : Int
  step : Int
deriving DecidableEq, Repr

/-- The all-zero output that decode_channel installs before looking at the
record (`*rx_hz = ... = 0`, `*name = 0`). -/
def ft60_zero_decoded : FT60Decoded :=
  { name := [], rx_hz := 0, tx_hz := 0, rx_ctcs := 0, tx_ctcs := 0,
    rx_dcs := 0, tx_dcs := 0, power := 0, wide := 0, scan := 0,
    isam := 0, step := 0 }

/-- The used flag of a channel record: bit 7 of its first byte. -/
def ft60_used_bit (m : Memory) (i seek : Nat) : Nat :=
  byte m (seek + 16 * i) / 128

/-- ft-60.c `decode_channel`.  `CT`/`DC` are the external CTCSS_TONES and
DCS_CODES tables; `hasName` mirrors whether the caller passed a name
buffer.  For a memory or PMS channel whose used flag is clear the function
returns after zeroing every output. -/
def ft60_decode_channel (CT DC : Nat → Nat) (m : Memory) (i seek : Nat)
    (hasName : Bool) : FT60Decoded :=
  if ft60_used_bit m i seek = 0 ∧
      (seek = FT60_OFFSET_CHANNELS ∨ seek = FT60_OFFSET_PMS) then
    ft60_zero_decoded
  else
    let base := seek + 16 * i
    let duplex := byte m base % 16
    let rx : Int :=
      ft60_freq_to_hz (byte m (base + 1), byte m (base + 2), byte m (base + 3))
    let tx : Int :=
      if duplex = 2 then rx - (byte m (base + 12) : Int) * 50000
      else if duplex = 3 then rx + (byte m (base + 12) : Int) * 50000
      else if duplex = 4 then
        ft60_freq_to_hz (byte m (base + 5), byte m (base + 6), byte m (base + 7))
      else rx
    let tmode := byte m (base + 4) % 8
    let tone := byte m (base + 8) % 64
    let dtcs := byte m (base + 9) % 128
    let sq : Int × Int × Int × Int :=
      if tmode = 1 then (0, CT tone, 0, 0)
      else if tmode = 2 then (CT tone, CT tone, 0, 0)
      else if tmode = 3 then (-(CT tone : Int), CT tone, 0, 0)
      else if tmode = 4 then (0, 0, DC dtcs, DC dtcs)
      else if tmode = 5 then (0, 0, 0, DC dtcs)
      else if tmode = 6 then (0, CT tone, DC dtcs, 0)
      else if tmode = 7 then (CT tone, 0, 0, DC dtcs)
      else (0, 0, 0, 0)
    { name :=
        if hasName ∧ seek = FT60_OFFSET_CHANNELS then ft60_decode_name m i
        else []
      rx_hz := rx
      tx_hz := tx
      rx_ctcs := sq.1
      tx_ctcs := sq.2.1
      rx_dcs := sq.2.2.1
      tx_dcs := sq.2.2.2
      power := byte m (base + 8) / 64
      wide := if byte m base / 32 % 2 = 1 then 0 else 1
      scan := byte m (FT60_OFFSET_SCAN + i / 4) * 2 ^ (i % 4 * 2) / 64 % 4
      isam := byte m base / 16 % 2
      step := byte m (base + 4) / 8 % 8 }

/-- ft-60.c `setup_channel`.  The C if/else chain selecting duplex mode,
offset byte and cross-band frequency is rendered as three selectors over
the same mutually exclusive conditions (offset zero / small positive /
small negative / cross-band); `256 * 0.05` is the rational 64/5.  The C
doubles are modelled as exact rationals. -/
def ft60_setup_channel (m : Memory) (i : Nat) (name : Option (List Char))
    (rx_mhz tx_mhz : ℚ) (tmode tone dtcs power wide scan isam : Nat) :
    Memory :=
  let base := FT60_OFFSET_CHANNELS + 16 * i
  let rxb := ft60_hz_to_freq (ctrunc (rx_mhz * 1000000)).toNat
  let offset_mhz := tx_mhz - rx_mhz
  let pos := 0 < offset_mhz ∧ offset_mhz < 64 / 5
  let neg := offset_mhz < 0 ∧ -(64 / 5) < offset_mhz
  let duplex : Nat :=
    if offset_mhz = 0 then 0 else if pos then 3 else if neg then 2 else 4
  let offb : Nat :=
    if pos then (ctrunc (offset_mhz * 20 + 1 / 2)).toNat
    else if neg then (ctrunc (-offset_mhz * 20 + 1 / 2)).toNat
    else 0
  let txb : Nat × Nat × Nat :=
    if offset_mhz = 0 ∨ pos ∨ neg then (0, 0, 0)
    else ft60_hz_to_freq (ctrunc (tx_mhz * 1000000)).toNat
  let used : Nat := if 0 < rx_mhz then 1 else 0
  let stepv : Nat := if 400 ≤ rx_mhz then 2 else 0
  let u2 : Nat := if 400 ≤ rx_mhz then 1 else 0
  let m1 := updList m
    [(base, duplex % 16 + isam % 2 * 16 + (if wide = 0 then 1 else 0) * 32 +
        used * 128),
     (base + 1, rxb.1), (base + 2, rxb.2.1), (base + 3, rxb.2.2),
     (base + 4, tmode % 8 + stepv * 8 + u2 * 64),
     (base + 5, txb.1), (base + 6, txb.2.1), (base + 7, txb.2.2),
     (base + 8, tone % 64 + power % 4 * 64),
     (base + 9, dtcs % 128),
     (base + 10, 15), (base + 11, 0),
     (base + 12, offb),
     (base + 13, 0), (base + 14, 0), (base + 15, 0)]
  let scanAddr := FT60_OFFSET_SCAN + i / 4
  let shift := i % 4 * 2
  let scanOld := byte m1 scanAddr
  let m2 := upd m1 scanAddr
    (scanOld % 2 ^ shift + scanOld / 2 ^ (shift + 2) * 2 ^ (shift + 2) +
     scan % 4 * 2 ^ shift)
  ft60_encode_name m2 i name

/-- The concrete FT-60 record of C9: used, duplex = positive offset,
rx = 146.52 MHz (BCD bytes 0x01 0x46 0x52), offset byte 12 (600 kHz). -/
def c9_record : Memory :=
  updList (fun _ => 0)
    [(0x0248, 131), (0x0249, 1), (0x024a, 70), (0x024b, 82), (0x0254, 12)]

/-- C9: for every used FT-60 channel record with duplex = positive offset
(duplex field 3), decode_channel reports tx_hz = rx_hz + offset*50000 (the
offset byte counts 50 kHz steps); in particular a record with
rx = 146520000 Hz and offset byte 12 decodes to tx = 147120000 Hz. -/
theorem duplex_pos_offset_tx :
    (∀ (CT DC : Nat → Nat) (m : Memory) (i : Nat) (hasName : Bool),
      ft60_used_bit m i FT60_OFFSET_CHANNELS = 1 →
      byte m (FT60_OFFSET_CHANNELS + 16 * i) % 16 = 3 →
      (ft60_decode_channel CT DC m i FT60_OFFSET_CHANNELS hasName).tx_hz =
        (ft60_decode_channel CT DC m i FT60_OFFSET_CHANNELS hasName).rx_hz +
          (byte m (FT60_OFFSET_CHANNELS + 16 * i + 12) : Int) * 50000) ∧
    (ft60_decode_channel (fun _ => 0) (fun _ => 0) c9_record 0
        FT60_OFFSET_CHANNELS false).rx_hz = 146520000 ∧
    (ft60_decode_channel (fun _ => 0) (fun _ => 0) c9_record 0
        FT60_OFFSET_CHANNELS false).tx_hz = 147120000 := by
  refine ⟨?_, by decide, by decide⟩
  intro CT DC m i hasName hu hd
  simp [ft60_decode_channel, hu, hd]

/-- C9 (witness): the general part of C9 applied to the concrete record
`c9_record` at channel 0. -/
theorem duplex_pos_offset_tx_witness :
    (ft60_decode_channel (fun _ => 0) (fun _ => 0) c9_record 0
        FT60_OFFSET_CHANNELS false).tx_hz =
      (ft60_decode_channel (fun _ => 0) (fun _ => 0) c9_record 0
          FT60_OFFSET_CHANNELS false).rx_hz +
        (byte c9_record (FT60_OFFSET_CHANNELS + 16 * 0 + 12) : Int) * 50000 :=
  duplex_pos_offset_tx.1 (fun _ => 0) (fun _ => 0) c9_record 0 false
    (by decide) (by decide)

/-- C5: ft-60.c setup_channel stores the 2-bit scan mode of channel i at
bit offset 2*(i mod 4) of its scan byte (least significant pair first),
but decode_channel reads the pair at bit offset 6-2*(i mod 4) (most
significant pair first).  Starting from an all-zero image, storing scan
mode 1 for channel 0 and decoding channel 0 therefore yields scan 0, not
1: the scan column does not survive a store/decode cycle. -/
theorem ft60_scan_mode_mismatch :
    (ft60_decode_channel (fun _ => 0) (fun _ => 0)
        (ft60_setup_channel (fun _ => 0) 0 none (293 / 2) (293 / 2)
          0 12 0 0 1 1 0)
        0 FT60_OFFSET_CHANNELS false).scan = 0 := by
  have e0 : ((293 : ℚ) / 2 - 293 / 2) = 0 := by norm_num
  have e1 : (0 : ℚ) < 293 / 2 := by norm_num
  have e2 : ¬ ((400 : ℚ) ≤ 293 / 2) := by norm_num
  have e3 : (ctrunc ((293 : ℚ) / 2 * 1000000)).toNat = 146500000 := by
    norm_num [ctrunc]
    rfl
  simp only [ft60_setup_channel, e0, e1, e2, e3]
  norm_num
  decide

/-! ## C string helpers for the table parsers

The table rows are tokenized by `sscanf("%s ...")`, so each field is a
whitespace-free `List Char`.  `strtoul(str, &eptr, 10)` is modelled for the
digit-led case the parsers feed it (an initial digit run; a non-digit first
character leaves `eptr == str`); `atoi` for an optional sign followed by a
digit run. -/

/-- Leading digit run: accumulated value and rest of the string. -/
def strtoul10core : List Char → Nat → Nat × List Char
  | [], acc => (acc, [])
  | c :: rest, acc =>
    if c.isDigit then strtoul10core rest (acc * 10 + (c.toNat - 48))
    else (acc, c :: rest)

/-- `strtoul(str, &eptr, 10)`: `none` when no digits are consumed
(`eptr == str`), else the value and the rest. -/
def strtoul10 (s : List Char) : Option (Nat × List Char) :=
  match s with
  | c :: _ => if c.isDigit then some (strtoul10core s 0) else none
  | [] => none

theorem strtoul10core_length :
    ∀ (s : List Char) (acc : Nat),
      (strtoul10core s acc).2.length ≤ s.length := by
  intro s
  induction s with
  | nil => intro acc; simp [strtoul10core]
  | cons c rest ih =>
    intro acc
    rw [strtoul10core]
    by_cases hc : c.isDigit
    · simp only [if_pos hc]
      exact le_trans (ih _) (by simp)
    · simp [if_neg hc]

theorem strtoul10_length (s : List Char) (v : Nat) (r : List Char)
    (h : strtoul10 s = some (v, r)) : r.length < s.length := by
  match s with
  | [] => simp [strtoul10] at h
  | c :: t =>
    rw [strtoul10] at h
    by_cases hc : c.isDigit
    · rw [if_pos hc, strtoul10core, if_pos hc] at h
      have h2 : r = (strtoul10core t (0 * 10 + (c.toNat - 48))).2 :=
        congrArg Prod.snd (Option.some_inj.mp h).symm
      have h3 := strtoul10core_length t (0 * 10 + (c.toNat - 48))
      rw [h2]
      simp only [List.length_cons]
      omega
    · rw [if_neg hc] at h
      simp at h

/-- Leading digit run, value only (for `atoi`). -/
def natPrefix : List Char → Nat → Nat
  | [], acc => acc
  | c :: rest, acc =>
    if c.isDigit then natPrefix rest (acc * 10 + (c.toNat - 48)) else acc

/-- C `atoi`: optional sign then a digit run. -/
def atoiI (s : List Char) : Int :=
  match s with
  | c :: rest =>
    if c = '-' then -(natPrefix rest 0 : Int)
    else if c = '+' then (natPrefix rest 0 : Int)
    else (natPrefix s 0 : Int)
  | [] => 0

/-! ## FT-60 banks (ft-60.c)

Each of the 10 banks is a 128-byte bitmap at OFFSET_BANKS; channel index n
(0-based) is bit `n & 7` of byte `n / 8`. -/

/-- ft-60.c: `data[n/8] & (1 << (n & 7))` is nonzero. -/
def ft60_chan_in_bank (m : Memory) (b n : Nat) : Bool :=
  byte m (FT60_OFFSET_BANKS + b * 0x80 + n / 8) / 2 ^ (n % 8) % 2 == 1

/-- ft-60.c `setup_bank`: set the channel bit in the bank bitmap. -/
def ft60_setup_bank (m : Memory) (bank chan : Nat) : Memory :=
  let a := FT60_OFFSET_BANKS + bank * 0x80 + chan / 8
  upd m a (byte m a ||| 2 ^ (chan % 8))

/-- The `for (c=last; c<cnum; c++) setup_bank(bnum-1, c)` range loop of
parse_banks. -/
def ft60_add_range (m : Memory) (bank last cnum : Nat) : Memory :=
  (List.range (cnum - last)).foldl
    (fun mm j => ft60_setup_bank mm bank (last + j)) m

/-- The channel-list loop of ft-60.c `parse_banks`: parse numbers and
ranges separated by commas and dashes, setting bank bits as soon as each
element is parsed; fail (keeping the stores already made) on a malformed
element or an out-of-range channel number.  Each iteration strictly
consumes input, so recursion is driven by a fuel bounded below by the
token length; the fuel-exhausted branch is unreachable from the entry
point. -/
def ft60_parse_list_go (m : Memory) (bnum : Nat) (rng : Bool) (last : Nat) :
    Nat → List Char → Bool × Memory
  | 0, _ => (false, m)
  | fuel + 1, s =>
    match strtoul10 s with
    | none => (false, m)
    | some (cnum, rest) =>
      if cnum < 1 ∨ 1000 < cnum then (false, m)
      else
        let m2 := if rng then ft60_add_range m (bnum - 1) last cnum
                  else ft60_setup_bank m (bnum - 1) (cnum - 1)
        match rest with
        | [] => (true, m2)
        | c :: rest2 =>
          if c = ',' ∨ c = '-' then
            ft60_parse_list_go m2 bnum (c == '-') cnum fuel rest2
          else (false, m2)

/-- Entry to the channel-list loop. -/
def ft60_parse_list (m : Memory) (bnum : Nat) (s : List Char) : Bool × Memory :=
  ft60_parse_list_go m bnum false 0 (s.length + 1) s

/-- ft-60.c `parse_banks`: check the bank number, on the first row erase
the whole banks region, accept a lone leading dash as an empty list, else
run the channel-list loop. -/
def ft60_parse_banks (first_row : Bool) (num_str chan_str : List Char)
    (m : Memory) : Bool × Memory :=
  let bnum := atoiI num_str
  if bnum < 1 ∨ 10 < bnum then (false, m)
  else
    let m1 := if first_row then memset m FT60_OFFSET_BANKS (10 * 0x80) 0
              else m
    if chan_str.head? = some '-' then (true, m1)
    else ft60_parse_list m1 bnum.toNat chan_str

/-- One iteration of the ft-60.c `print_bank` channel loop: state is
(last, range, output so far). -/
def ft60_print_bank_step (m : Memory) (b : Nat) (st : Int × Bool × String)
    (n : Nat) : Int × Bool × String :=
  if ft60_chan_in_bank m b n then
    let cnum : Int := (n : Int) + 1
    if cnum = st.1 + 1 then (cnum, true, st.2.2)
    else
      let out1 := if st.2.1 then st.2.2 ++ "-" ++ toString st.1 else st.2.2
      let out2 := if 0 ≤ st.1 then out1 ++ "," else out1
      (cnum, false, out2 ++ toString cnum)
  else st

/-- ft-60.c `print_bank`, channel-list portion: the text printed after the
bank-number column (the C function also prints that prefix and a final
newline). -/
def ft60_print_bank_channels (m : Memory) (b : Nat) : String :=
  let st := (List.range 1000).foldl (ft60_print_bank_step m b)
    ((-1 : Int), false, "")
  if st.2.1 then st.2.2 ++ "-" ++ toString st.1 else st.2.2

/-! ## VX-2 channel records (vx-2.c)

`memory_channel_t` is an 18-byte record: byte 0 has isnarrow in bit 5;
byte 1 has step in bits 0-3, duplex in bits 4-5 and amfm in bits 6-7;
bytes 2-4 the receive frequency; byte 5 has tmode in bits 0-1 and power in
bits 6-7; bytes 6-11 the name; bytes 12-14 the transmit offset frequency;
byte 15 the tone index (bits 0-5); byte 16 the DCS index (bits 0-6).
Channel flags live in a separate region, 4 bits per channel. -/

def VX2_OFFSET_BUSE1 : Nat := 0x005a
def VX2_OFFSET_BUSE2 : Nat := 0x00da
def VX2_OFFSET_BNCHAN : Nat := 0x016a
def VX2_OFFSET_HOME : Nat := 0x03d2
def VX2_OFFSET_VFO : Nat := 0x04e2
def VX2_OFFSET_BANKS : Nat := 0x05c2
def VX2_OFFSET_FLAGS : Nat := 0x1562
def VX2_OFFSET_CHANNELS : Nat := 0x17c2
def VX2_OFFSET_PMS : Nat := 0x5e12

/-- The VX-2 CHARSET string of vx-2.c, as ASCII codes (42 entries; entry 36
is the space). -/
def VX2_CHARSET : List Nat :=
  [48, 49, 50, 51, 52, 53, 54, 55, 56, 57,
   65, 66, 67, 68, 69, 70, 71, 72, 73, 74, 75, 76, 77, 78, 79, 80,
   81, 82, 83, 84, 85, 86, 87, 88, 89, 90,
   32, 43, 45, 47, 91, 93]

/-- vx-2.c `get_flags`: the 4-bit flag nibble of channel i. -/
def vx2_flags (m : Memory) (i : Nat) : Nat :=
  byte m (VX2_OFFSET_FLAGS + i / 2) / 2 ^ (i % 2 * 4) % 16

/-- vx-2.c `set_flags`: replace the 4-bit flag nibble of channel i. -/
def vx2_set_flags (m : Memory) (i flags : Nat) : Memory :=
  let a := VX2_OFFSET_FLAGS + i / 2
  let old := byte m a
  upd m a
    (if i % 2 = 0 then old / 16 * 16 + flags % 16
     else old % 16 + flags % 16 * 16)

/-- vx-2.c `decode_name` over the six name bytes at `base`: decodes only
when the first code (bit 7 masked off) is inside the character set;
otherwise the caller's empty string is left in place. -/
def vx2_decode_name (m : Memory) (base : Nat) : List Nat :=
  if byte m base % 128 < 42 then
    (((List.range 6).map (fun n =>
        let c := byte m (base + n) % 128
        let ch := if c < 42 then VX2_CHARSET.getD c 0 else 32
        if ch = 32 then 95 else ch)).reverse.dropWhile (· == 95)).reverse
  else []

/-- vx-2.c `encode_char`: underscore becomes space, letters fold to upper
case, characters missing from CHARSET map to the space code 36. -/
def vx2_encode_char (c : Nat) : Nat :=
  let c1 := if c = 95 then 32 else c
  let c2 := if 97 ≤ c1 ∧ c1 ≤ 122 then c1 - 32 else c1
  match VX2_CHARSET.findIdx? (· == c2) with
  | some j => j
  | none => 36

/-- vx-2.c `encode_name` over the six name bytes at `base`: an absent,
empty or dash name is replaced by six spaces; the encoded characters are
stored padded with the space code, and bit 7 of the first byte is set
when the name does not start with the space code. -/
def vx2_encode_name (m : Memory) (base : Nat) (name : Option (List Char)) :
    Memory :=
  let s : List Char :=
    match name with
    | some (c :: rest) => if c = '-' then "      ".data else c :: rest
    | _ => "      ".data
  let codes := (List.range 6).map (fun n =>
    if h : n < s.length then vx2_encode_char (s.get ⟨n, h⟩).toNat else 36)
  let first := codes.getD 0 36
  updList m
    (((List.range 6).map (fun n => (base + n, codes.getD n 36))) ++
     (if first ≠ 36 then [(base, first + 128)] else []))

/-- The semantic result of vx-2.c `decode_channel` (its output
parameters). -/
structure VX2Decoded where
  name : List Nat
  rx_hz : Int
  tx_hz : Int
  rx_ctcs : Int
  tx_ctcs : Int
  rx_dcs : Int
  tx_dcs : Int
  power : Int
  scan : Int
  amfm : Int
  step : Int
deriving DecidableEq, Repr

/-- The all-zero output that vx-2.c decode_channel installs before looking
at the record. -/
def vx2_zero_decoded : VX2Decoded :=
  { name := [], rx_hz := 0, tx_hz := 0, rx_ctcs := 0, tx_ctcs := 0,
    rx_dcs := 0, tx_dcs := 0, power := 0, scan := 0, amfm := 0, step := 0 }

/-- vx-2.c `decode_channel`.  For a memory or PMS channel whose FLAG_VALID
flag (bit 1 of the flag nibble; PMS flags start at channel index 1000) is
clear, the function returns after zeroing every output. -/
def vx2_decode_channel (CT DC : Nat → Nat) (m : Memory) (i seek : Nat)
    (hasName : Bool) : VX2Decoded :=
  if (seek = VX2_OFFSET_CHANNELS ∨ seek = VX2_OFFSET_PMS) ∧
      vx2_flags m (i + if seek = VX2_OFFSET_PMS then 1000 else 0) / 2 % 2 = 0
  then vx2_zero_decoded
  else
    let base := seek + 18 * i
    let flags := vx2_flags m (i + if seek = VX2_OFFSET_PMS then 1000 else 0)
    let duplex := byte m (base + 1) / 16 % 4
    let rx : Int :=
      vx2_freq_to_hz (byte m (base + 2), byte m (base + 3), byte m (base + 4))
    let off : Int :=
      vx2_freq_to_hz (byte m (base + 12), byte m (base + 13), byte m (base + 14))
    let tx : Int :=
      if duplex = 1 then rx - off
      else if duplex = 2 then rx + off
      else if duplex = 3 then off
      else rx
    let tmode := byte m (base + 5) % 4
    let tone := byte m (base + 15) % 64
    let dcs := byte m (base + 16) % 128
    let sq : Int × Int × Int × Int :=
      if tmode = 1 then (0, CT tone, 0, 0)
      else if tmode = 2 then (CT tone, CT tone, 0, 0)
      else if tmode = 3 then (0, 0, DC dcs, DC dcs)
      else (0, 0, 0, 0)
    { name :=
        if hasName ∧ seek = VX2_OFFSET_CHANNELS then vx2_decode_name m (base + 6)
        else []
      rx_hz := rx
      tx_hz := tx
      rx_ctcs := sq.1
      tx_ctcs := sq.2.1
      rx_dcs := sq.2.2.1
      tx_dcs := sq.2.2.2
      power := byte m (base + 5) / 64
      scan := if flags / 8 % 2 = 1 then 2 else if flags / 4 % 2 = 1 then 1 else 0
      amfm := if byte m base / 32 % 2 = 1 then 4 else byte m (base + 1) / 64
      step := byte m (base + 1) % 16 }

/-- C3: for every channel index i, decoding a memory channel or PMS channel
whose unused sentinel is set (FT-60: the used bit of the record is 0;
VX-2: the per-channel FLAG_VALID flag is clear) yields the fully-zeroed
semantic result: every numeric output is 0 and the decoded name is
empty. -/
theorem unused_channel_decodes_zero :
    (∀ (CT DC : Nat → Nat) (m : Memory) (i seek : Nat) (hasName : Bool),
      (seek = FT60_OFFSET_CHANNELS ∨ seek = FT60_OFFSET_PMS) →
      ft60_used_bit m i seek = 0 →
      ft60_decode_channel CT DC m i seek hasName = ft60_zero_decoded) ∧
    (∀ (CT DC : Nat → Nat) (m : Memory) (i seek : Nat) (hasName : Bool),
      (seek = VX2_OFFSET_CHANNELS ∨ seek = VX2_OFFSET_PMS) →
      vx2_flags m (i + if seek = VX2_OFFSET_PMS then 1000 else 0) / 2 % 2 = 0 →
      vx2_decode_channel CT DC m i seek hasName = vx2_zero_decoded) := by
  constructor
  · intro CT DC m i seek hasName hs hu
    unfold ft60_decode_channel
    rw [if_pos ⟨hu, hs⟩]
  · intro CT DC m i seek hasName hs hf
    unfold vx2_decode_channel
    rw [if_pos ⟨hs, hf⟩]

/-- C3 (witness): both halves of C3 applied to the all-zero image (the
FT-60 used bit of channel 0 is 0, and the VX-2 flag nibble of channel 0 is
0) at both the memory-channel and PMS regions. -/
theorem unused_channel_decodes_zero_witness :
    ft60_decode_channel (fun _ => 0) (fun _ => 0) (fun _ => 0) 0
      FT60_OFFSET_CHANNELS true = ft60_zero_decoded ∧
    ft60_decode_channel (fun _ => 0) (fun _ => 0) (fun _ => 0) 0
      FT60_OFFSET_PMS false = ft60_zero_decoded ∧
    vx2_decode_channel (fun _ => 0) (fun _ => 0) (fun _ => 0) 0
      VX2_OFFSET_CHANNELS true = vx2_zero_decoded ∧
    vx2_decode_channel (fun _ => 0) (fun _ => 0) (fun _ => 0) 0
      VX2_OFFSET_PMS false = vx2_zero_decoded :=
  ⟨unused_channel_decodes_zero.1 _ _ _ 0 _ true (Or.inl rfl) (by decide),
   unused_channel_decodes_zero.1 _ _ _ 0 _ false (Or.inr rfl) (by decide),
   unused_channel_decodes_zero.2 _ _ _ 0 _ true (Or.inl rfl) (by decide),
   unused_channel_decodes_zero.2 _ _ _ 0 _ false (Or.inr rfl) (by decide)⟩

/-! ## VX-2 banks (vx-2.c)

Each of the 20 banks is an array of 100 16-bit big-endian channel indices
at OFFSET_BANKS (0xffff = empty slot), with the count-minus-one of used
slots kept at OFFSET_BNCHAN and 0xffff "banks unused" sentinels at
OFFSET_BUSE1/OFFSET_BUSE2.  The C code reads and writes the 16-bit cells
through `big_endian_16`, so in memory the high byte is at the lower
address; the `== 0xffff` empty-slot test is equivalent to both bytes being
0xff on either host endianness. -/

/-- The stored channel count minus one of bank i (big-endian 16-bit). -/
def vx2_bnchan (m : Memory) (i : Nat) : Nat :=
  byte m (VX2_OFFSET_BNCHAN + 2 * i) * 256 +
  byte m (VX2_OFFSET_BNCHAN + 2 * i + 1)

/-- Slot n of bank i (big-endian 16-bit). -/
def vx2_bank_entry (m : Memory) (i n : Nat) : Nat :=
  byte m (VX2_OFFSET_BANKS + i * 200 + 2 * n) * 256 +
  byte m (VX2_OFFSET_BANKS + i * 200 + 2 * n + 1)

/-- The first-empty-slot search of vx-2.c `setup_bank` (`for (n=0; n<100;
n++)`, counted down by the first argument). -/
def vx2_find_slot (m : Memory) (bank : Nat) : Nat → Nat → Option Nat
  | 0, _ => none
  | k + 1, n =>
    if byte m (VX2_OFFSET_BANKS + bank * 200 + 2 * n) = 255 ∧
        byte m (VX2_OFFSET_BANKS + bank * 200 + 2 * n + 1) = 255
    then some n
    else vx2_find_slot m bank k (n + 1)

/-- vx-2.c `setup_bank`: store the channel index into the first empty slot;
when no slot is empty the C function prints a diagnostic and exits
(`none`). -/
def vx2_setup_bank (m : Memory) (bank chan : Nat) : Option Memory :=
  match vx2_find_slot m bank 100 0 with
  | some n => some (updList m
      [(VX2_OFFSET_BANKS + bank * 200 + 2 * n, chan / 256),
       (VX2_OFFSET_BANKS + bank * 200 + 2 * n + 1, chan % 256)])
  | none => none

/-- The `for (c=last; c<cnum; c++) setup_bank(bnum-1, c)` range loop of
vx-2.c parse_banks. -/
def vx2_add_range (m : Memory) (bank last cnum : Nat) : Option Memory :=
  (List.range (cnum - last)).foldlM
    (fun mm j => vx2_setup_bank mm bank (last + j)) m

/-- Result of the vx-2.c parse_banks channel-list loop: success with the
channel count, row failure, or process exit (a full bank). -/
inductive VX2ListResult where
  | ok (m : Memory) (nchan : Nat) : VX2ListResult
  | fail (m : Memory) : VX2ListResult
  | exited : VX2ListResult

/-- The channel-list loop of vx-2.c `parse_banks` (fuel-driven as in the
FT-60 model; each iteration strictly consumes input). -/
def vx2_parse_list_go (m : Memory) (bnum : Nat) (rng : Bool)
    (last nchan : Nat) : Nat → List Char → VX2ListResult
  | 0, _ => .fail m
  | fuel + 1, s =>
    match strtoul10 s with
    | none => .fail m
    | some (cnum, rest) =>
      if cnum < 1 ∨ 1000 < cnum then .fail m
      else
        let stepRes : Option (Memory × Nat) :=
          if rng then
            match vx2_add_range m (bnum - 1) last cnum with
            | some m2 => some (m2, nchan + (cnum - last))
            | none => none
          else
            match vx2_setup_bank m (bnum - 1) (cnum - 1) with
            | some m2 => some (m2, nchan + 1)
            | none => none
        match stepRes with
        | none => .exited
        | some (m2, nchan2) =>
          match rest with
          | [] => .ok m2 nchan2
          | c :: rest2 =>
            if c = ',' ∨ c = '-' then
              vx2_parse_list_go m2 bnum (c == '-') cnum nchan2 fuel rest2
            else .fail m2

/-- Outcome of vx-2.c `parse_banks`: row success or failure (each keeping
the stores made so far), or process exit. -/
inductive BankParse where
  | success (m : Memory) : BankParse
  | failure (m : Memory) : BankParse
  | exited : BankParse

def BankParse.isSuccess : BankParse → Bool
  | .success _ => true
  | _ => false

def BankParse.isFailure : BankParse → Bool
  | .failure _ => true
  | _ => false

/-- The memory image held by a parse outcome. -/
def BankParse.mem : BankParse → Memory
  | .success m => m
  | .failure m => m
  | .exited => fun _ => 0

/-- vx-2.c `parse_banks`: check the bank number; on the first row fill the
bank slots, the bank counts and the two bank-use sentinels with 0xff;
accept a lone leading dash; else run the channel-list loop, then store
nchan-1 into the bank's count cell and clear the bank-use sentinels. -/
def vx2_parse_banks (first_row : Bool) (num_str chan_str : List Char)
    (m : Memory) : BankParse :=
  let bnum := atoiI num_str
  if bnum < 1 ∨ 20 < bnum then .failure m
  else
    let m1 := if first_row then
        memset (memset (memset (memset m VX2_OFFSET_BANKS (20 * 200) 0xff)
          VX2_OFFSET_BNCHAN (20 * 2) 0xff) VX2_OFFSET_BUSE1 2 0xff)
          VX2_OFFSET_BUSE2 2 0xff
      else m
    if chan_str.head? = some '-' then .success m1
    else
      match vx2_parse_list_go m1 bnum.toNat false 0 0
          (chan_str.length + 1) chan_str with
      | .fail m2 => .failure m2
      | .exited => .exited
      | .ok m2 nchan =>
        let m3 := updList m2
          [(VX2_OFFSET_BNCHAN + (bnum.toNat - 1) * 2, (nchan - 1) / 256),
           (VX2_OFFSET_BNCHAN + (bnum.toNat - 1) * 2 + 1, (nchan - 1) % 256)]
        let m4 := if 0 < nchan then
            memset (memset m3 VX2_OFFSET_BUSE1 2 0) VX2_OFFSET_BUSE2 2 0
          else m3
        .success m4

/-- One iteration of the vx-2.c `print_bank` slot loop (the comma is
printed for every slot after the first). -/
def vx2_print_bank_step (m : Memory) (i : Nat) (st : Int × Bool × String)
    (n : Nat) : Int × Bool × String :=
  let cnum : Int := 1 + (vx2_bank_entry m i n : Int)
  if cnum = st.1 + 1 then (cnum, true, st.2.2)
  else
    let out1 := if st.2.1 then st.2.2 ++ "-" ++ toString st.1 else st.2.2
    let out2 := if 0 < n then out1 ++ "," else out1
    (cnum, false, out2 ++ toString cnum)

/-- vx-2.c `print_bank`, channel-list portion: prints slots 0..nchan when
the stored count is below 100, else nothing (`none`). -/
def vx2_print_bank_channels (m : Memory) (i : Nat) : Option String :=
  if vx2_bnchan m i < 100 then
    some
      (let st := (List.range (vx2_bnchan m i + 1)).foldl
          (vx2_print_bank_step m i) ((-1 : Int), false, "")
       if st.2.1 then st.2.2 ++ "-" ++ toString st.1 else st.2.2)
  else none

/-- The 1-based channel numbers of the slots bank i holds (what the print
loop walks). -/
def vx2_bank_channels (m : Memory) (i : Nat) : List Nat :=
  (List.range (vx2_bnchan m i + 1)).map (fun n => 1 + vx2_bank_entry m i n)

set_option maxRecDepth 100000 in
/-- C4: parsing the bank-row channel list "2,5-7,10" into bank 1 of a
freshly-reset image marks exactly the 1-based channels {2,5,6,7,10} as
members of the bank (FT-60: exactly those bits of the bitmap; VX-2:
exactly those channels in the slot list), and printing that membership
renders exactly the text "2,5-7,10" again, on both models. -/
theorem bank_list_roundtrip :
    (ft60_parse_banks true ("1".data) ("2,5-7,10".data) (fun _ => 0)).1 =
      true ∧
    (((List.range 1000).filter (fun n =>
        ft60_chan_in_bank
          (ft60_parse_banks true ("1".data) ("2,5-7,10".data)
            (fun _ => 0)).2 0 n)).map (fun n => n + 1)) =
      [2, 5, 6, 7, 10] ∧
    ft60_print_bank_channels
      (ft60_parse_banks true ("1".data) ("2,5-7,10".data) (fun _ => 0)).2 0 =
      "2,5-7,10" ∧
    (vx2_parse_banks true ("1".data) ("2,5-7,10".data)
        (fun _ => 0)).isSuccess = true ∧
    vx2_bank_channels
      (vx2_parse_banks true ("1".data) ("2,5-7,10".data) (fun _ => 0)).mem 0 =
      [2, 5, 6, 7, 10] ∧
    vx2_print_bank_channels
      (vx2_parse_banks true ("1".data) ("2,5-7,10".data) (fun _ => 0)).mem 0 =
      some "2,5-7,10" := by
  decide

/-- C10: bank-row parsing is not atomic on failure: on the list "1,2000"
(first channel valid, second out of range) parse_banks returns failure
after having already set channel 1's membership, on both models.  The
FT-60 run starts from the all-zero image and leaves bit 0 of the bank
bitmap set; the VX-2 run starts from the all-0xff image (empty bank slots)
and leaves channel index 0 stored in the first slot. -/
theorem bank_parse_not_atomic :
    ((ft60_parse_banks false ("1".data) ("1,2000".data) (fun _ => 0)).1 =
        false ∧
      byte (ft60_parse_banks false ("1".data) ("1,2000".data)
        (fun _ => 0)).2 FT60_OFFSET_BANKS = 1 ∧
      byte (fun _ => 0 : Memory) FT60_OFFSET_BANKS = 0) ∧
    ((vx2_parse_banks false ("1".data) ("1,2000".data)
        (fun _ => 255)).isFailure = true ∧
      byte (vx2_parse_banks false ("1".data) ("1,2000".data)
        (fun _ => 255)).mem VX2_OFFSET_BANKS = 0 ∧
      byte (fun _ => 255 : Memory) VX2_OFFSET_BANKS = 255) := by
  decide

/-! ## Channel-table row parsing (parse_channel, both models)

Rows are tokenized by `sscanf` with nine `%s` conversions; a row with
fewer tokens fails.  The `%lf` conversions of the frequency fields and the
`encode_squelch` helper (which parses the two squelch specifications with
`sscanf("%f")` and never fails the row — it always returns a tmode) are
kept abstract: `scanD` models `sscanf(str, "%lf", &x)` and `esq` models
`encode_squelch` returning (tmode, tone index, DCS index).  Everything the
power-field claim depends on is concrete. -/

/-- `tolower` on an ASCII code. -/
def tolowerN (c : Char) : Nat :=
  let n := c.toNat
  if 65 ≤ n ∧ n ≤ 90 then n + 32 else n

/-- `strcasecmp(a, b) == 0`. -/
def caseEq : List Char → List Char → Bool
  | [], [] => true
  | a :: as, b :: bs => tolowerN a == tolowerN b && caseEq as bs
  | _, _ => false

/-- ft-60.c `is_valid_frequency` (takes the truncated integer MHz). -/
def ft60_is_valid_frequency (mhz : Int) : Bool :=
  (108 ≤ mhz && mhz ≤ 520) || (700 ≤ mhz && mhz ≤ 999)

/-- vx-2.c `is_valid_frequency` (takes the double MHz). -/
def vx2_is_valid_frequency (mhz : ℚ) : Bool :=
  1 / 2 ≤ mhz && mhz ≤ 999

/-- The FT-60 power column: High/Mid/Low (case-insensitive), else the row
fails with "Bad power level". -/
def ft60_power_of (s : List Char) : Option Nat :=
  if caseEq s ("High".data) then some 0
  else if caseEq s ("Mid".data) then some 1
  else if caseEq s ("Low".data) then some 2
  else none

/-- The FT-60 modulation column: (wide, isam). -/
def ft60_wide_of (s : List Char) : Option (Nat × Nat) :=
  if caseEq s ("Wide".data) then some (1, 0)
  else if caseEq s ("Narrow".data) then some (0, 0)
  else if caseEq s ("AM".data) then some (1, 1)
  else none

/-- The scan column of both models: a leading +, a leading -, or "Only". -/
def scan_of (s : List Char) : Option Nat :=
  if s.head? = some '+' then some 0
  else if s.head? = some '-' then some 1
  else if caseEq s ("Only".data) then some 2
  else none

/-- The VX-2 power column: High, or Low or a dash (both map to PWR_LOW). -/
def vx2_power_of (s : List Char) : Option Nat :=
  if caseEq s ("High".data) then some 0
  else if caseEq s ("Low".data) || caseEq s ("-".data) then some 3
  else none

/-- The VX-2 modulation column. -/
def vx2_mod_of (s : List Char) : Option Nat :=
  if caseEq s ("FM".data) then some 0
  else if caseEq s ("AM".data) then some 1
  else if caseEq s ("WFM".data) then some 2
  else if caseEq s ("NFM".data) then some 4
  else if caseEq s ("Auto".data) then some 3
  else none

/-- The first-row erase of the FT-60 channel table: `setup_channel(i, 0,
0, 0, 0, TONE_DEFAULT, 0, 0, 1, 0, 0)` for every channel. -/
def ft60_erase_channels (m : Memory) : Memory :=
  (List.range 1000).foldl
    (fun mm j => ft60_setup_channel mm j none 0 0 0 12 0 0 1 0 0) m

/-- ft-60.c `parse_channel`: validate the channel number, receive and
transmit frequencies, squelch, power, modulation and scan columns in
order, failing the row (with the image untouched) on the first bad field;
only then, on the first row, erase the channel table, and store the
channel. -/
def ft60_parse_channel (scanD : List Char → Option ℚ)
    (esq : List Char → List Char → Nat × Nat × Nat)
    (first_row : Bool) (toks : List (List Char)) (m : Memory) :
    Bool × Memory :=
  match toks with
  | num_str :: name_str :: rxfreq_str :: offset_str :: rq :: tq ::
      power_str :: wide_str :: scan_str :: _ =>
    let num := atoiI num_str
    if num < 1 ∨ 1000 < num then (false, m)
    else match scanD rxfreq_str with
    | none => (false, m)
    | some rx_mhz =>
      if ¬ ft60_is_valid_frequency (ctrunc rx_mhz) = true then (false, m)
      else match scanD offset_str with
      | none => (false, m)
      | some tx0 =>
        let tx_mhz :=
          if offset_str.head? = some '-' ∨ offset_str.head? = some '+'
          then tx0 + rx_mhz else tx0
        if ¬ ft60_is_valid_frequency (ctrunc tx_mhz) = true then (false, m)
        else
          let tsq := esq rq tq
          match ft60_power_of power_str with
          | none => (false, m)
          | some power =>
            match ft60_wide_of wide_str with
            | none => (false, m)
            | some wi =>
              match scan_of scan_str with
              | none => (false, m)
              | some scan =>
                let m1 := if first_row then ft60_erase_channels m else m
                (true,
                 ft60_setup_channel m1 (num.toNat - 1) (some name_str)
                   rx_mhz tx_mhz tsq.1 tsq.2.1 tsq.2.2 power wi.1 scan wi.2)
  | _ => (false, m)

/-- vx-2.c `setup_channel` (doubles as exact rationals; the duplex if/else
chain is rendered as parallel selectors over the same mutually exclusive
conditions). -/
def vx2_setup_channel (m : Memory) (i : Nat) (name : Option (List Char))
    (rx_mhz tx_mhz : ℚ) (tmode tone dcs power scan amfm : Nat) : Memory :=
  let base := VX2_OFFSET_CHANNELS + 18 * i
  let rxb := vx2_hz_to_freq (iround (rx_mhz * 1000000)).toNat
  let offset_khz : Int := iround ((tx_mhz - rx_mhz) * 1000)
  let duplex : Nat :=
    if offset_khz = 0 then 0
    else if 0 < offset_khz ∧ offset_khz < 100000 then 2
    else if offset_khz < 0 ∧ -offset_khz < 100000 then 1
    else 3
  let offb : Nat × Nat × Nat :=
    if offset_khz = 0 then (0, 0, 0)
    else if 0 < offset_khz ∧ offset_khz < 100000 then
      vx2_hz_to_freq (offset_khz * 1000).toNat
    else if offset_khz < 0 ∧ -offset_khz < 100000 then
      vx2_hz_to_freq (-offset_khz * 1000).toNat
    else vx2_hz_to_freq (iround (tx_mhz * 1000000)).toNat
  let isnarrow : Nat := if amfm = 4 then 1 else 0
  let u1 : Nat := if rx_mhz < 9 / 5 then 2 else if rx_mhz < 88 then 0 else 5
  let m1 := updList m
    [(base, u1 % 16 + isnarrow * 32),
     (base + 1, 2 + duplex % 4 * 16 + amfm % 4 * 64),
     (base + 2, rxb.1), (base + 3, rxb.2.1), (base + 4, rxb.2.2),
     (base + 5, tmode % 4 + power % 4 * 64),
     (base + 12, offb.1), (base + 13, offb.2.1), (base + 14, offb.2.2),
     (base + 15, tone % 64),
     (base + 16, dcs % 128),
     (base + 17, 0)]
  let m2 := vx2_encode_name m1 (base + 6) name
  vx2_set_flags m2 i
    (3 + (if scan = 1 then 4 else if scan = 2 then 8 else 0))

/-- The first-row erase of the VX-2 channel table: channel records filled
with 0xff, channel flag nibbles cleared. -/
def vx2_erase_channels (m : Memory) : Memory :=
  memset (memset m VX2_OFFSET_CHANNELS (1000 * 18) 0xff)
    VX2_OFFSET_FLAGS 500 0

/-- vx-2.c `parse_channel`: as the FT-60 one, with the VX-2 column sets;
a transmit column that is exactly a dash means transmit = receive. -/
def vx2_parse_channel (scanD : List Char → Option ℚ)
    (esq : List Char → List Char → Nat × Nat × Nat)
    (first_row : Bool) (toks : List (List Char)) (m : Memory) :
    Bool × Memory :=
  match toks with
  | num_str :: name_str :: rxfreq_str :: offset_str :: rq :: tq ::
      power_str :: mod_str :: scan_str :: _ =>
    let num := atoiI num_str
    if num < 1 ∨ 1000 < num then (false, m)
    else match scanD rxfreq_str with
    | none => (false, m)
    | some rx_mhz =>
      if ¬ vx2_is_valid_frequency rx_mhz = true then (false, m)
      else
        let txp : Option ℚ :=
          if offset_str = ['-'] then some rx_mhz
          else match scanD offset_str with
          | none => none
          | some tx0 =>
            let tx1 :=
              if offset_str.head? = some '-' ∨ offset_str.head? = some '+'
              then tx0 + rx_mhz else tx0
            if ¬ vx2_is_valid_frequency tx1 = true then none else some tx1
        match txp with
        | none => (false, m)
        | some tx_mhz =>
          let tsq := esq rq tq
          match vx2_power_of power_str with
          | none => (false, m)
          | some power =>
            match vx2_mod_of mod_str with
            | none => (false, m)
            | some amfm =>
              match scan_of scan_str with
              | none => (false, m)
              | some scan =>
                let m1 := if first_row then vx2_erase_channels m else m
                (true,
                 vx2_setup_channel m1 (num.toNat - 1) (some name_str)
                   rx_mhz tx_mhz tsq.1 tsq.2.1 tsq.2.2 power scan amfm)
  | _ => (false, m)

/-- C6: for every channel-table row whose power field is an unrecognized
word, parse_channel returns failure (0) and leaves every byte of the
memory image unchanged, on both models and regardless of whether the row
is the first row of the table (the first-row erase happens only after all
columns have validated). -/
theorem bad_power_level_rejected :
    (∀ (scanD : List Char → Option ℚ)
        (esq : List Char → List Char → Nat × Nat × Nat)
        (first_row : Bool) (t1 t2 t3 t4 t5 t6 p t8 t9 : List Char)
        (rest : List (List Char)) (m : Memory),
      ft60_power_of p = none →
      ft60_parse_channel scanD esq first_row
        (t1 :: t2 :: t3 :: t4 :: t5 :: t6 :: p :: t8 :: t9 :: rest) m =
        (false, m)) ∧
    (∀ (scanD : List Char → Option ℚ)
        (esq : List Char → List Char → Nat × Nat × Nat)
        (first_row : Bool) (t1 t2 t3 t4 t5 t6 p t8 t9 : List Char)
        (rest : List (List Char)) (m : Memory),
      vx2_power_of p = none →
      vx2_parse_channel scanD esq first_row
        (t1 :: t2 :: t3 :: t4 :: t5 :: t6 :: p :: t8 :: t9 :: rest) m =
        (false, m)) := by
  constructor
  · intro scanD esq first_row t1 t2 t3 t4 t5 t6 p t8 t9 rest m hp
    simp only [ft60_parse_channel, hp]
    repeat first
      | rfl
      | (split <;> try rfl)
  · intro scanD esq first_row t1 t2 t3 t4 t5 t6 p t8 t9 rest m hp
    simp only [vx2_parse_channel, hp]
    repeat first
      | rfl
      | (split <;> try rfl)

/-- C6 (witness): a row with power field "Ultra" is rejected and leaves
the all-zero image unchanged, on both models (frequency parsing modelled
by an oracle accepting 146.52 and 440.0). -/
theorem bad_power_level_rejected_witness :
    ft60_parse_channel (fun _ => some 146) (fun _ _ => (0, 12, 0)) true
      (("1".data) :: ("CALL".data) :: ("146".data) :: ("146".data) ::
        ("-".data) :: ("-".data) :: ("Ultra".data) :: ("Wide".data) ::
        ("+".data) :: []) (fun _ => 0) = (false, fun _ => 0) ∧
    vx2_parse_channel (fun _ => some 146) (fun _ _ => (0, 12, 0)) true
      (("1".data) :: ("CALL".data) :: ("146".data) :: ("146".data) ::
        ("-".data) :: ("-".data) :: ("Ultra".data) :: ("FM".data) ::
        ("+".data) :: []) (fun _ => 0) = (false, fun _ => 0) :=
  ⟨bad_power_level_rejected.1 _ _ true _ _ _ _ _ _ _ _ _ _ _ (by decide),
   bad_power_level_rejected.2 _ _ true _ _ _ _ _ _ _ _ _ _ _ (by decide)⟩
